import Mathlib

/-!
Verification development for the wex-tag-transaction-system repository.

The Go source is shallowly embedded: monetary values and exchange rates are
modelled as rationals (the spec blesses a decimal path for all arithmetic,
with the single prescribed rounding step), calendar dates as explicit
year/month/day records with Go's `time` normalization semantics, and the
effectful parts (BadgerDB, the in-memory rate cache, the HTTP transport to
the Treasury feed, clocks and UUIDs) as explicit state and oracle
parameters.  Machine floats of the source are represented by rationals,
machine integers by `Int`.
-/

namespace WexTag

/-! ## Rounding (Go `math.Round`, used in conversion_service.go and
transaction_service.go as `math.Round(x*100)/100`) -/

/-- Embedding of Go `math.Round`: rounds to the nearest integer, halves
rounded away from zero. -/
def mathRound (x : ℚ) : ℚ :=
  if x < 0 then -((Int.floor (-x + 1/2) : ℤ) : ℚ) else ((Int.floor (x + 1/2) : ℤ) : ℚ)

/-- Embedding of the idiom `math.Round(x*100) / 100` used by both
`CreateTransaction` (amount quantization) and `GetTransactionInCurrency`
(final conversion rounding). -/
def roundCents (x : ℚ) : ℚ := mathRound (x * 100) / 100

/-- Modelled from the spec: `round_half_away_from_zero(x, d)` — round to `d`
fractional digits, halves away from zero.  Used only to compare the source's
rounding against the specified one. -/
def round_half_away_from_zero (x : ℚ) (d : ℕ) : ℚ :=
  (if x < 0 then -((Int.floor ((-x) * (10 : ℚ) ^ d + 1/2) : ℤ) : ℚ)
   else ((Int.floor (x * (10 : ℚ) ^ d + 1/2) : ℤ) : ℚ)) / (10 : ℚ) ^ d

/-! ## Calendar dates (Go `time.Time` at day granularity) -/

/-- A calendar date as Go's `time.Date` sees it (year, month, day). -/
structure GoDate where
  year : ℤ
  month : ℤ
  day : ℤ
deriving DecidableEq, Repr

/-- Go `isLeap`: divisible by 4 and (not by 100 or by 400). -/
def isLeap (y : ℤ) : Bool := y % 4 == 0 && (y % 100 != 0 || y % 400 == 0)

/-- Days in a month, following Go's `daysIn`. -/
def daysInMonth (y m : ℤ) : ℤ :=
  if m = 2 then (if isLeap y then 29 else 28)
  else if m = 4 ∨ m = 6 ∨ m = 9 ∨ m = 11 then 30
  else 31

/-- Go `time.Date` month normalization: months outside 1..12 are carried
into the year (truncated division, then a sign fix-up, as in `norm`). -/
def normMonth (y m : ℤ) : ℤ × ℤ :=
  let m0 := m - 1
  let y1 := y + Int.tdiv m0 12
  let m1 := Int.tmod m0 12
  if m1 < 0 then (y1 - 1, m1 + 12 + 1) else (y1, m1 + 1)

/-- Day-overflow carry of Go `time.Date`: a day count past the end of the
month flows into the following month (October 31 minus 6 months is
April 31, which normalizes to May 1).  `fuel` bounds the carry; for day
values at most 31 a single carry step suffices. -/
def carryDays (y m d : ℤ) : ℕ → GoDate
  | 0 => ⟨y, m, d⟩
  | fuel + 1 =>
    if d ≤ daysInMonth y m then ⟨y, m, d⟩
    else if m = 12 then carryDays (y + 1) 1 (d - daysInMonth y m) fuel
    else carryDays y (m + 1) (d - daysInMonth y m) fuel

/-- Embedding of Go `date.AddDate(0, months, 0)`: add `months` calendar
months, then normalize via `time.Date` (month into year, day overflow into
the next month). -/
def addDateMonths (dt : GoDate) (months : ℤ) : GoDate :=
  let ym := normMonth dt.year (dt.month + months)
  carryDays ym.1 ym.2 dt.day 24

/-- `date.AddDate(0, -6, 0)` — the lower bound of the rate window computed
in `GetExchangeRate`. -/
def sixMonthsBefore (dt : GoDate) : GoDate := addDateMonths dt (-6)

/-- `time.Before` at day granularity: strict lexicographic order. -/
def GoDate.before (a b : GoDate) : Bool :=
  a.year < b.year ∨ (a.year = b.year ∧ (a.month < b.month ∨ (a.month = b.month ∧ a.day < b.day)))

/-- `time.After` at day granularity. -/
def GoDate.after (a b : GoDate) : Bool := GoDate.before b a

/-! ## Date formatting (`Format("2006-01-02")`) -/

/-- Decimal digits of `n`, most significant first; `fuel` bounds the
recursion and any `fuel > 0` with `fuel ≥ n` suffices. -/
def natDigits (fuel n : ℕ) : List Char :=
  match fuel with
  | 0 => []
  | fuel + 1 =>
    if n < 10 then [Nat.digitChar n]
    else natDigits fuel (n / 10) ++ [Nat.digitChar (n % 10)]

/-- Zero-pad the decimal rendering of a nonnegative integer to `w` digits. -/
def padNum (w : ℕ) (n : ℤ) : String :=
  let s := String.mk (natDigits (n.natAbs + 1) n.natAbs)
  let pad := w - s.length
  String.mk (List.replicate pad '0') ++ s

/-- The date separator of Go layout `2006-01-02`. -/
def sDash : String := "-"

/-- Go `t.Format("2006-01-02")` for dates in the common era. -/
def formatDate (dt : GoDate) : String :=
  padNum 4 dt.year ++ sDash ++ padNum 2 dt.month ++ sDash ++ padNum 2 dt.day

/-! ## Substring search (Go `strings.Contains`) -/

/-- Whether `pat` begins the list `l` (character lists). -/
def startsWithChars : List Char → List Char → Bool
  | [], _ => true
  | _ :: _, [] => false
  | p :: ps, c :: cs => p == c && startsWithChars ps cs

/-- Whether `pat` occurs somewhere in `l`. -/
def hasSubChars (pat : List Char) : List Char → Bool
  | [] => startsWithChars pat []
  | c :: cs => startsWithChars pat (c :: cs) || hasSubChars pat cs

/-- Embedding of Go `strings.Contains hay pat`. -/
def strContains (hay pat : String) : Bool := hasSubChars pat.data hay.data

/-! ## Timestamps (Go `time.Time` with a clock) -/

/-- Days since the Unix epoch for a civil date (the standard civil-calendar
conversion; Go reaches the same count through its absolute-time encoding). -/
def daysFromCivil (dt : GoDate) : ℤ :=
  let y := if dt.month ≤ 2 then dt.year - 1 else dt.year
  let era := Int.fdiv y 400
  let yoe := y - era * 400
  let mp := Int.fmod (dt.month + 9) 12
  let doy := Int.fdiv (153 * mp + 2) 5 + dt.day - 1
  let doe := yoe * 365 + Int.fdiv yoe 4 - Int.fdiv yoe 100 + doy
  era * 146097 + doe - 719468

/-- A `time.Time` instant: a civil date plus the second of that day (UTC). -/
structure GoTime where
  date : GoDate
  sec : ℤ
deriving DecidableEq, Repr

/-- Go `t.Unix()`. -/
def GoTime.unix (t : GoTime) : ℤ := daysFromCivil t.date * 86400 + t.sec

/-- Go `t.IsZero()` — the zero `time.Time` is January 1 of year 1. -/
def GoTime.isZero (t : GoTime) : Bool := t == ⟨⟨1, 1, 1⟩, 0⟩

/-- Go `t.AddDate(n, 0, 0)`: same month and day `n` years later, with
`time.Date` normalization of an invalid day (February 29 rolls to March 1). -/
def GoTime.addDateYears (t : GoTime) (n : ℤ) : GoTime :=
  ⟨carryDays (t.date.year + n) t.date.month t.date.day 24, t.sec⟩

/-! ## Domain entities (internal/domain/entity) -/

/-- entity.ExchangeRate. -/
structure ExchangeRate where
  currency : String
  date : GoDate
  rate : ℚ
deriving DecidableEq, Repr

/-- entity.Transaction (the version carrying `CreatedAt` and `TTL`). -/
structure Transaction where
  id : String
  description : String
  date : GoDate
  amount : ℚ
  createdAt : GoTime
  ttl : ℤ
deriving DecidableEq, Repr

def msgDescTooLong : String := "description must not exceed 50 characters"

def msgAmountPositive : String := "amount must be a positive value"

def msgFutureDate : String := "transaction date cannot be in the future"

/-- `(*Transaction).Validate`, with `time.Now()` passed in as `today`
(day granularity suffices for the date comparison).  Go's `len` on the
description counts UTF-8 bytes, embedded as `String.utf8ByteSize`. -/
def Transaction.Validate (t : Transaction) (today : GoDate) : Option String :=
  if t.description.utf8ByteSize > 50 then some msgDescTooLong
  else if t.amount ≤ 0 then some msgAmountPositive
  else if t.date.after today then some msgFutureDate
  else none

/-- `(*Transaction).CalculateTTL`: `TTL = CreatedAt.AddDate(1,0,0).Unix()`. -/
def Transaction.CalculateTTL (t : Transaction) : Transaction :=
  { t with ttl := (t.createdAt.addDateYears 1).unix }

/-! ## Error values

Go errors are `fmt.Errorf` strings; the HTTP handlers classify them with
`strings.Contains`.  Errors are embedded as an inductive of the construction
sites, and `errMsg` reproduces the Go message text (numeric renderings of
rates differ immaterially from Go's `%f`; no classifier inspects them). -/

inductive GoErr where
  | noRateAvailable (date : GoDate) (currency : String)
  | invalidRateValue (rate : ℚ)
  | outsideWindow (rateDate lower upper : GoDate)
  | apiErrorStatus (code : ℤ)
  | transportFailure
  | txNotFound (id : String)
  | failedRetrieveRate (e : GoErr)
  | wrapGetRate (e : GoErr)
  | wrapRetrieveTx (e : GoErr)
deriving DecidableEq, Repr

def errMsg : GoErr → String
  | .noRateAvailable d c =>
      "no exchange rate available within 6 months of " ++ formatDate d ++ " for currency " ++ c
  | .invalidRateValue r => "invalid exchange rate value: " ++ toString r
  | .outsideWindow rd lo hi =>
      "exchange rate date " ++ formatDate rd ++ " is outside the allowed range (must be between "
        ++ formatDate lo ++ " and " ++ formatDate hi ++ " inclusive)"
  | .apiErrorStatus c => "API returned error status: " ++ toString c
  | .transportFailure => "failed to execute request after 3 attempts: transport error"
  | .txNotFound id => "transaction not found: " ++ id
  | .failedRetrieveRate e => "failed to retrieve exchange rate: " ++ errMsg e
  | .wrapGetRate e => "failed to get exchange rate: " ++ errMsg e
  | .wrapRetrieveTx e => "failed to retrieve transaction: " ++ errMsg e

/-- Modelled from the spec: the no-rate-in-window error taxonomy — "feed
returned no rate, or returned a rate outside `[txDate−6mo, txDate]`". -/
def isNoRateInWindow : GoErr → Bool
  | .noRateAvailable _ _ => true
  | .outsideWindow _ _ _ => true
  | _ => false

/-! ## Rate cache (internal/infrastructure/cache/exchange_rate_cache.go) -/

/-- cache.CacheEntry. -/
structure CacheEntry where
  rate : ExchangeRate
  timestamp : ℤ
deriving DecidableEq

/-- cache.ExchangeRateCache: the key/entry map plus the expiration. -/
structure ExchangeRateCache where
  cache : String → Option CacheEntry
  expiration : ℤ

/-- `generateCacheKey`. -/
def generateCacheKey (currency : String) (date : GoDate) : String :=
  currency ++ ":" ++ formatDate date

/-- `NewExchangeRateCache()`: empty map, 24-hour expiration. -/
def NewExchangeRateCache : ExchangeRateCache := ⟨fun _ => none, 24 * 3600⟩

/-- `(*ExchangeRateCache).Get` with `time.Now()` passed as `now` (seconds):
a present entry is returned unless `now - timestamp > expiration`. -/
def ExchangeRateCache.Get (c : ExchangeRateCache) (now : ℤ) (currency : String)
    (date : GoDate) : Option ExchangeRate :=
  match c.cache (generateCacheKey currency date) with
  | none => none
  | some entry => if now - entry.timestamp > c.expiration then none else some entry.rate

/-- `(*ExchangeRateCache).Put`: stores unconditionally under
`(rate.Currency, forDate)` with the current time. -/
def ExchangeRateCache.Put (c : ExchangeRateCache) (now : ℤ) (rate : ExchangeRate)
    (forDate : GoDate) : ExchangeRateCache :=
  { c with cache := fun k =>
      if k = generateCacheKey rate.currency forDate then some ⟨rate, now⟩ else c.cache k }

/-! ## Treasury feed client (the api client with cache, retry and window
double-check — `GetExchangeRate` of internal/infrastructure/api) -/

/-- One row of the feed's `data` array, after the client's two parses
(`fmt.Sscanf` of `exchange_rate`, `time.Parse` of `record_date`).  The
claims under study concern rows whose strings parse, so the row carries the
parsed values. -/
structure RateData where
  countryName : String
  currencyDesc : String
  exchangeRate : ℚ
  recordDate : GoDate
deriving DecidableEq, Repr

/-- The decoded TreasuryResponse body (the fields the client reads). -/
structure TreasuryResponse where
  data : List RateData
deriving DecidableEq, Repr

/-- Result of one `httpClient.Do` exchange: a transport-level failure
(`err != nil`) or an HTTP response with a status and decoded body. -/
inductive FeedOutcome where
  | transportErr
  | response (status : ℤ) (body : TreasuryResponse)
deriving DecidableEq, Repr

/-- Observable trace of the retry loop of `GetExchangeRate` (lines 101–129):
how many `Do` calls were made, which backoff sleeps were performed (in
seconds, in order), how many fresh requests were built for retries, and the
final outcome (`transportErr` when every attempt failed). -/
structure RetryTrace where
  doCalls : ℕ
  sleeps : List ℕ
  freshRequests : ℕ
  outcome : FeedOutcome
deriving DecidableEq, Repr

/-- The retry loop body: `for attempt := 1; attempt <= maxRetries; attempt++`
with `maxRetries = 3`; breaks as soon as `Do` returns without a transport
error (whatever the HTTP status), otherwise sleeps `attempt*attempt` seconds
and builds a fresh request while `attempt < maxRetries`.  `transport k` is
the outcome of the `k`-th `Do` call; `fuel` is the loop iteration bound. -/
def retryGo (transport : ℕ → FeedOutcome) (attempt : ℕ) : ℕ → RetryTrace
  | 0 => ⟨0, [], 0, .transportErr⟩
  | fuel + 1 =>
    match transport attempt with
    | .response s b => ⟨1, [], 0, .response s b⟩
    | .transportErr =>
      if attempt < 3 then
        let rest := retryGo transport (attempt + 1) fuel
        ⟨rest.doCalls + 1, attempt * attempt :: rest.sleeps, rest.freshRequests + 1, rest.outcome⟩
      else ⟨1, [], 0, .transportErr⟩

/-- The whole retry loop, started at attempt 1. -/
def executeWithRetry (transport : ℕ → FeedOutcome) : RetryTrace := retryGo transport 1 3

/-- `(*TreasuryAPIClient).GetExchangeRate` after the transport exchange:
cache lookup, status check, empty-data check, rate positivity, the
independent 6-month-window check, and the cache insert on success.  `feed`
is the transport outcome (consulted only on a cache miss), `now` the clock
in Unix seconds.  Returns the result, the cache afterwards, and whether the
feed was consulted. -/
def GetExchangeRate (cache : ExchangeRateCache) (now : ℤ) (currency : String)
    (date : GoDate) (feed : FeedOutcome) :
    Except GoErr ExchangeRate × ExchangeRateCache × Bool :=
  match cache.Get now currency date with
  | some cachedRate => (.ok cachedRate, cache, false)
  | none =>
    let sixMonthsAgo := sixMonthsBefore date
    match feed with
    | .transportErr => (.error .transportFailure, cache, true)
    | .response status body =>
      if status ≠ 200 then (.error (.apiErrorStatus status), cache, true)
      else
        match body.data with
        | [] => (.error (.noRateAvailable date currency), cache, true)
        | rateData :: _ =>
          if rateData.exchangeRate ≤ 0 then
            (.error (.invalidRateValue rateData.exchangeRate), cache, true)
          else if rateData.recordDate.before sixMonthsAgo || rateData.recordDate.after date then
            (.error (.outsideWindow rateData.recordDate sixMonthsAgo date), cache, true)
          else
            let exchangeRate : ExchangeRate := ⟨currency, rateData.recordDate, rateData.exchangeRate⟩
            (.ok exchangeRate, cache.Put now exchangeRate date, true)

/-- `(*TreasuryExchangeRateRepository).FindRate`: delegates to the client
and wraps failures with "failed to retrieve exchange rate". -/
def FindRate (cache : ExchangeRateCache) (now : ℤ) (currency : String) (date : GoDate)
    (feed : FeedOutcome) : Except GoErr ExchangeRate × ExchangeRateCache × Bool :=
  let r := GetExchangeRate cache now currency date feed
  match r.1 with
  | .error e => (.error (.failedRetrieveRate e), r.2)
  | .ok v => (.ok v, r.2)

/-! ## BadgerDB transaction repository
(internal/infrastructure/db/badger_transaction_repository.go) -/

/-- The key/value store under the `tx:` namespace.  BadgerDB stores the
JSON serialization of the record; `json.Marshal`/`json.Unmarshal` are
mutually inverse on this flat record type, so the store maps keys directly
to records. -/
structure BadgerDB where
  store : String → Option Transaction

def txKey (id : String) : String := "tx:" ++ id

/-- `(*BadgerTransactionRepository).Store`: fills `CreatedAt`/`TTL` when the
record arrives with a zero `CreatedAt`, then writes under `tx:<id>` and
returns the id. -/
def BadgerStore (db : BadgerDB) (now : GoTime) (tx : Transaction) : String × BadgerDB :=
  let tx := if tx.createdAt.isZero then Transaction.CalculateTTL { tx with createdAt := now } else tx
  (tx.id, ⟨fun k => if k = txKey tx.id then some tx else db.store k⟩)

/-- `(*BadgerTransactionRepository).FindByID` with the clock passed in Unix
seconds.  The TTL check only emits a warning (returned here as the Boolean)
— an expired record is still returned in full. -/
def BadgerFindByID (db : BadgerDB) (nowUnix : ℤ) (id : String) :
    Except GoErr (Transaction × Bool) :=
  match db.store (txKey id) with
  | none => .error (.txNotFound id)
  | some tx => .ok (tx, decide (0 < tx.ttl ∧ tx.ttl < nowUnix))

/-! ## Transaction service (transaction_service.go) -/

/-- `(*TransactionService).CreateTransaction` with the effectful inputs made
explicit: `newId` for `uuid.New().String()`, `now` for `time.Now().UTC()`
and `today` for the date `Validate` compares against.  The amount is
rounded to the nearest cent BEFORE the entity is validated; on success the
id and the updated store are returned. -/
def CreateTransaction (db : BadgerDB) (newId : String) (now : GoTime) (today : GoDate)
    (desc : String) (date : GoDate) (amount : ℚ) : Except String (String × BadgerDB) :=
  let amount := roundCents amount
  let tx : Transaction := ⟨newId, desc, date, amount, now, 0⟩
  let tx := tx.CalculateTTL
  match tx.Validate today with
  | some e => .error e
  | none => .ok (BadgerStore db now tx)

/-! ## Conversion service (conversion_service.go) -/

/-- service.ConvertedTransaction. -/
structure ConvertedTransaction where
  id : String
  description : String
  date : GoDate
  originalAmount : ℚ
  currency : String
  exchangeRate : ℚ
  convertedAmount : ℚ
  rateDate : GoDate
deriving DecidableEq, Repr

/-- `(*ConversionService).GetTransactionInCurrency`: fetch the transaction,
resolve the rate through the repository (cache → feed → window check →
cache insert), multiply, and round once to two decimals.  Returns the
response, the cache afterwards, and whether the feed was consulted. -/
def GetTransactionInCurrency (db : BadgerDB) (cache : ExchangeRateCache) (now : ℤ)
    (id currency : String) (feed : FeedOutcome) :
    Except GoErr ConvertedTransaction × ExchangeRateCache × Bool :=
  match BadgerFindByID db now id with
  | .error e => (.error (.wrapRetrieveTx e), cache, false)
  | .ok (tx, _) =>
    let fr := FindRate cache now currency tx.date feed
    match fr.1 with
    | .error e => (.error (.wrapGetRate e), fr.2)
    | .ok rate =>
      let convertedAmount := tx.amount * rate.rate
      let convertedAmount := roundCents convertedAmount
      (.ok ⟨tx.id, tx.description, tx.date, tx.amount, currency,
            rate.rate, convertedAmount, rate.date⟩, fr.2)

/-! ## Conversion handler error classification (conversion_handler.go) -/

/-- handler.ErrorResponse (without the request id, which is orthogonal). -/
structure ErrorResponse where
  error : String
  status : ℤ
  description : String
deriving DecidableEq, Repr

def sNotFound : String := "not found"

def sNoRateAvailable : String := "no exchange rate available"

def sRateDate : String := "exchange rate date"

def sOutsideRange : String := "outside the allowed range"

def sFailedGetRate : String := "failed to get exchange rate"

def sFailedExecute : String := "failed to execute request"

def dNotFound : String := "The requested transaction could not be found"

def dNoRate : String :=
  "No exchange rate is available within 6 months of the transaction date for the specified currency"

def dOutside : String :=
  "The available exchange rate is outside the 6-month window prior to the transaction date"

def dRateUnavailable : String := "Unable to retrieve exchange rate data. Please try again later."

def dTempUnavailable : String :=
  "The exchange rate service is temporarily unavailable. Please try again later."

def dInternal : String := "An unexpected error occurred. Please try again later."

def eNotFound : String := "Transaction not found"

def eNoRate : String := "No exchange rate available"

def eOutside : String := "Exchange rate outside allowed range"

def eRateUnavailable : String := "Exchange rate service unavailable"

def eTempUnavailable : String := "Service temporarily unavailable"

def eInternal : String := "Internal server error"

/-- The pieces of the wrapped no-rate-available message, used to reason
about the handler's substring classification. -/
def msgP1 : String := "failed to get exchange rate: "

def msgP2 : String := "failed to retrieve exchange rate: "

def msgP3 : String := "no exchange rate available within 6 months of "

def msgP4 : String := " for currency "

/-- The `switch`/`strings.Contains` classification of
`(*ConversionHandler).ConvertTransaction`, mapping a service error to the
HTTP error envelope. -/
def classifyConversionErr (e : GoErr) : ErrorResponse :=
  let msg := errMsg e
  if strContains msg sNotFound then ⟨eNotFound, 404, dNotFound⟩
  else if strContains msg sNoRateAvailable then ⟨eNoRate, 400, dNoRate⟩
  else if strContains msg sRateDate && strContains msg sOutsideRange then
    ⟨eOutside, 400, dOutside⟩
  else if strContains msg sFailedGetRate then ⟨eRateUnavailable, 503, dRateUnavailable⟩
  else if strContains msg sFailedExecute then ⟨eTempUnavailable, 503, dTempUnavailable⟩
  else ⟨eInternal, 500, dInternal⟩

/-! ## Statement helpers: the calendar reading of "six months earlier" -/

/-- Year of "the same month six calendar months earlier". -/
def windowYear (dt : GoDate) : ℤ := if 7 ≤ dt.month then dt.year else dt.year - 1

/-- Month of "the same month six calendar months earlier". -/
def windowMonth (dt : GoDate) : ℤ := if 7 ≤ dt.month then dt.month - 6 else dt.month + 6

/-- The date `d` days into the month after month `m` of year `y`. -/
def nextMonthDate (y m d : ℤ) : GoDate :=
  if m = 12 then ⟨y + 1, 1, d⟩ else ⟨y, m + 1, d⟩

/-! ## Concrete fixtures used by witnesses and counterexamples -/

def emptyS : String := ""

def s6Months : String := "6 months"

def emptyDb : BadgerDB := ⟨fun _ => none⟩

def descTest : String := "Test"

def idTest : String := "test-id"

def curEUR : String := "EUR"

def d0415 : GoDate := ⟨2023, 4, 15⟩

def d0410 : GoDate := ⟨2023, 4, 10⟩

def today0 : GoDate := ⟨2023, 4, 20⟩

def t0 : GoTime := ⟨⟨2023, 4, 20⟩, 0⟩

def txTest : Transaction := ⟨idTest, descTest, d0415, 12345/100, t0, 1⟩

def dbTest : BadgerDB := ⟨fun k => if k = txKey idTest then some txTest else none⟩

def rdEUR : RateData := ⟨emptyS, emptyS, 85/100, d0410⟩

def feed85 : FeedOutcome := .response 200 ⟨[rdEUR]⟩

def ctExpected : ConvertedTransaction :=
  ⟨idTest, descTest, d0415, 12345/100, curEUR, 85/100, 10493/100, d0410⟩

/-- The resolved rate of `feed85`. -/
def rateEUR : ExchangeRate := ⟨curEUR, d0410, 85/100⟩

/-- The cache after the first conversion stored `rateEUR` at time 0. -/
def cacheAfter : ExchangeRateCache := NewExchangeRateCache.Put 0 rateEUR d0415

/-- A description of 26 two-byte code points (52 UTF-8 bytes). -/
def desc26twoByte : String := String.mk (List.replicate 26 'é')

/-- A feed row carrying a non-positive rate dated outside the window. -/
def rdBad : RateData := ⟨emptyS, emptyS, -1, ⟨2022, 1, 1⟩⟩

/-- A feed row with a positive rate dated outside the 6-month window of
2023-04-15. -/
def rdOutWindow : RateData := ⟨emptyS, emptyS, 85/100, ⟨2022, 1, 1⟩⟩

/-- A transport oracle that always fails. -/
def transportAlwaysFail : ℕ → FeedOutcome := fun _ => .transportErr

/-- A transport oracle: transport failure once, then HTTP 500. -/
def transportFailThen500 : ℕ → FeedOutcome :=
  fun k => if k = 1 then .transportErr else .response 500 ⟨[]⟩

/-- A stored transaction whose advisory TTL (`created_at` + 1 year) lies in
the past: created 2020-01-01, so the TTL is the Unix time of 2021-01-01. -/
def txExpired : Transaction :=
  ⟨idTest, descTest, d0415, 12345/100, ⟨⟨2020, 1, 1⟩, 0⟩,
    (GoTime.addDateYears ⟨⟨2020, 1, 1⟩, 0⟩ 1).unix⟩

def dbExpired : BadgerDB := ⟨fun k => if k = txKey idTest then some txExpired else none⟩

/-! # Theorems -/

/-- The source's `math.Round(x*100)/100` agrees with the specified
half-away-from-zero rounding at two digits, for every rational input. -/
theorem roundCents_eq_spec (x : ℚ) : roundCents x = round_half_away_from_zero x 2 := by
  unfold roundCents mathRound round_half_away_from_zero
  have hp : ((10 : ℚ) ^ (2 : ℕ)) = 100 := by norm_num
  rw [hp]
  by_cases h : x < 0
  · have h' : x * 100 < 0 := by nlinarith
    rw [if_pos h, if_pos h']
    have e : -(x * 100) = (-x) * 100 := by ring
    rw [e]
  · have h' : ¬ x * 100 < 0 := by
      intro hc
      exact h (by nlinarith)
    rw [if_neg h, if_neg h']

/-- `roundCents` always produces an integer number of cents. -/
theorem roundCents_int (x : ℚ) : ∃ n : ℤ, roundCents x = (n : ℚ) / 100 := by
  unfold roundCents mathRound
  by_cases h : x * 100 < 0
  · exact ⟨-Int.floor (-(x * 100) + 1/2), by rw [if_pos h]; push_cast; ring⟩
  · exact ⟨Int.floor (x * 100 + 1/2), by rw [if_neg h]⟩

/-- Claim C1: when the conversion engine succeeds on a transaction with
positive amount and a resolved rate with positive rate, the converted
amount equals amount × rate rounded half-away-from-zero to exactly two
fractional digits.  The embedding's arithmetic on rationals is exact (the
spec's sanctioned decimal path), so this final step is the only rounding. -/
theorem c1_conversion_rounding (db : BadgerDB) (cache : ExchangeRateCache) (now : ℤ)
    (id currency : String) (feed : FeedOutcome) (ct : ConvertedTransaction)
    (hok : (GetTransactionInCurrency db cache now id currency feed).1 = Except.ok ct)
    (hamt : 0 < ct.originalAmount) (hrate : 0 < ct.exchangeRate) :
    ct.convertedAmount = round_half_away_from_zero (ct.originalAmount * ct.exchangeRate) 2 ∧
    ∃ n : ℤ, ct.convertedAmount = (n : ℚ) / 100 := by
  cases hfind : BadgerFindByID db now id with
  | error e =>
    simp only [GetTransactionInCurrency, hfind] at hok
    exact absurd hok (by simp)
  | ok p =>
    obtain ⟨tx, warn⟩ := p
    cases hfr : (FindRate cache now currency tx.date feed).1 with
    | error e =>
      simp only [GetTransactionInCurrency, hfind, hfr] at hok
      exact absurd hok (by simp)
    | ok rate =>
      simp only [GetTransactionInCurrency, hfind, hfr] at hok
      have hct : ct = ⟨tx.id, tx.description, tx.date, tx.amount, currency,
          rate.rate, roundCents (tx.amount * rate.rate), rate.date⟩ := by
        cases hok
        rfl
      subst hct
      exact ⟨roundCents_eq_spec _, roundCents_int _⟩

/-- Witness for claim C1 at the spec's own example: 123.45 × 0.85 converts
to 104.93. -/
theorem c1_conversion_rounding_witness :
    (GetTransactionInCurrency dbTest NewExchangeRateCache 0 idTest curEUR feed85).1 =
      Except.ok ctExpected ∧
    ctExpected.convertedAmount =
      round_half_away_from_zero (ctExpected.originalAmount * ctExpected.exchangeRate) 2 ∧
    ∃ n : ℤ, ctExpected.convertedAmount = (n : ℚ) / 100 := by
  have h : (GetTransactionInCurrency dbTest NewExchangeRateCache 0 idTest curEUR feed85).1 =
      Except.ok ctExpected := by with_unfolding_all rfl
  exact ⟨h, c1_conversion_rounding dbTest NewExchangeRateCache 0 idTest curEUR feed85
    ctExpected h (by norm_num [ctExpected]) (by norm_num [ctExpected])⟩

/-- Claim C10: a stored transaction whose advisory TTL (`created_at` plus
one year) already passed is still returned in full by `FindByID`; the
expiry only produces a warning (the Boolean in the embedding), never a
filter or a deletion. -/
theorem c10_expired_ttl_still_returned (db : BadgerDB) (id : String) (tx : Transaction)
    (nowUnix : ℤ) (hstore : db.store (txKey id) = some tx)
    (_hform : tx.ttl = (tx.createdAt.addDateYears 1).unix)
    (httlPos : 0 < tx.ttl) (hexpired : tx.ttl < nowUnix) :
    BadgerFindByID db nowUnix id = Except.ok (tx, true) := by
  unfold BadgerFindByID
  rw [hstore]
  simp [httlPos, hexpired]

/-- Witness for claim C10: a record created 2020-01-01 retrieved at Unix
time 2000000000 (past its 2021-01-01 TTL) is still returned. -/
theorem c10_expired_ttl_still_returned_witness :
    BadgerFindByID dbExpired 2000000000 idTest = Except.ok (txExpired, true) :=
  c10_expired_ttl_still_returned dbExpired idTest txExpired 2000000000
    (by rfl) (by rfl) (by decide) (by decide)

/-- `math.Round` of a non-positive argument is non-positive. -/
theorem mathRound_nonpos {x : ℚ} (hx : x ≤ 0) : mathRound x ≤ 0 := by
  unfold mathRound
  by_cases h : x < 0
  · rw [if_pos h]
    have h0 : (0 : ℤ) ≤ ⌊-x + 1/2⌋ := Int.floor_nonneg.mpr (by linarith)
    have hq : (0 : ℚ) ≤ ((⌊-x + 1/2⌋ : ℤ) : ℚ) := by exact_mod_cast h0
    linarith
  · rw [if_neg h]
    have hx0 : x = 0 := le_antisymm hx (not_lt.mp h)
    subst hx0
    have hf : (⌊(0 : ℚ) + 1/2⌋ : ℤ) = 0 := by norm_num [Int.floor_eq_iff]
    rw [hf]
    norm_num

/-- Cent quantization of a non-positive amount is non-positive. -/
theorem roundCents_nonpos {x : ℚ} (hx : x ≤ 0) : roundCents x ≤ 0 := by
  unfold roundCents
  have h1 : mathRound (x * 100) ≤ 0 := mathRound_nonpos (by nlinarith)
  linarith

/-- A record written by `BadgerStore` is read back under `tx:<id>` with its
description, date and amount intact (whichever way the `CreatedAt.IsZero`
branch goes). -/
theorem badgerStore_reads_back (db : BadgerDB) (now : GoTime) (tx : Transaction) :
    ∃ stored, (BadgerStore db now tx).2.store (txKey (BadgerStore db now tx).1) = some stored ∧
      stored.description = tx.description ∧ stored.date = tx.date ∧
      stored.amount = tx.amount ∧ (BadgerStore db now tx).1 = tx.id := by
  unfold BadgerStore
  by_cases hz : tx.createdAt.isZero = true
  · rw [if_pos hz]
    exact ⟨Transaction.CalculateTTL { tx with createdAt := now },
      by dsimp only []; rw [if_pos rfl], rfl, rfl, rfl, rfl⟩
  · rw [if_neg hz]
    exact ⟨tx, by dsimp only []; rw [if_pos rfl], rfl, rfl, rfl, rfl⟩

/-- When the description fits in 50 bytes, the quantized amount is
positive and the date is not in the future, `CreateTransaction` succeeds,
returning the fresh id, and stores the record with the quantized amount. -/
theorem createTransaction_succeeds (db : BadgerDB) (newId : String) (now : GoTime)
    (today : GoDate) (desc : String) (date : GoDate) (amount : ℚ)
    (hdesc : desc.utf8ByteSize ≤ 50) (hpos : 0 < roundCents amount)
    (hdate : date.after today = false) :
    ∃ db' stored, CreateTransaction db newId now today desc date amount =
        Except.ok (newId, db') ∧
      db'.store (txKey newId) = some stored ∧
      stored.description = desc ∧ stored.date = date ∧ stored.amount = roundCents amount := by
  have hrun : CreateTransaction db newId now today desc date amount =
      Except.ok (BadgerStore db now
        (Transaction.CalculateTTL ⟨newId, desc, date, roundCents amount, now, 0⟩)) := by
    unfold CreateTransaction Transaction.CalculateTTL Transaction.Validate
    simp only []
    rw [if_neg (by omega), if_neg (not_le.mpr hpos)]
    simp [hdate]
  obtain ⟨stored, hlook, hd, hdt, ha, hid⟩ := badgerStore_reads_back db now
    (Transaction.CalculateTTL ⟨newId, desc, date, roundCents amount, now, 0⟩)
  rw [hid] at hlook
  refine ⟨_, stored, ?_, hlook, hd, hdt, ha⟩
  rw [hrun]
  exact congrArg Except.ok (Prod.ext hid rfl)

/-- `CreateTransaction` rejects whenever the quantized amount is not
positive (the validation runs on the already-quantized value). -/
theorem createTransaction_quantized_nonpos (db : BadgerDB) (newId : String) (now : GoTime)
    (today : GoDate) (desc : String) (date : GoDate) (amount : ℚ)
    (hdesc : desc.utf8ByteSize ≤ 50) (hle : roundCents amount ≤ 0) :
    CreateTransaction db newId now today desc date amount = Except.error msgAmountPositive := by
  unfold CreateTransaction Transaction.CalculateTTL Transaction.Validate
  simp only []
  rw [if_neg (by omega), if_pos hle]

/-- Counterexample to claim C4 as stated: the amount 0.001 lies in (0, ∞)
yet creation fails — the service quantizes to cents first (0.001 → 0.00)
and only then applies the positivity check. -/
theorem c4_counterexample :
    (0 : ℚ) < 1/1000 ∧
    CreateTransaction emptyDb idTest t0 today0 descTest d0415 (1/1000) =
      Except.error msgAmountPositive := by
  constructor
  · norm_num
  · with_unfolding_all rfl

/-- Claim C4 (amended): an amount ≤ 0 is rejected with the invalid-amount
error; a positive amount is FIRST quantized to two decimals
half-away-from-zero and accepted exactly when the quantized value is still
positive, the stored amount being the quantized one; a positive amount
whose quantization is ≤ 0 (i.e. below 0.005) is rejected.  (The HTTP
handler separately rejects raw `amount ≤ 0` before the service runs, but
the service-level check happens after quantization.) -/
theorem c4_positivity_and_quantization (db : BadgerDB) (newId : String) (now : GoTime)
    (today : GoDate) (desc : String) (date : GoDate) (amount : ℚ)
    (hdesc : desc.utf8ByteSize ≤ 50) (hdate : date.after today = false) :
    (amount ≤ 0 →
      CreateTransaction db newId now today desc date amount = Except.error msgAmountPositive) ∧
    (0 < roundCents amount →
      ∃ db' stored, CreateTransaction db newId now today desc date amount =
          Except.ok (newId, db') ∧
        db'.store (txKey newId) = some stored ∧
        stored.description = desc ∧ stored.date = date ∧ stored.amount = roundCents amount) ∧
    (0 < amount → roundCents amount ≤ 0 →
      CreateTransaction db newId now today desc date amount = Except.error msgAmountPositive) := by
  refine ⟨?_, ?_, ?_⟩
  · intro hle
    exact createTransaction_quantized_nonpos db newId now today desc date amount hdesc
      (roundCents_nonpos hle)
  · intro hpos
    exact createTransaction_succeeds db newId now today desc date amount hdesc hpos hdate
  · intro _ hle
    exact createTransaction_quantized_nonpos db newId now today desc date amount hdesc hle

/-- Witness for the amended claim C4: amount 123.456 is accepted and stored
quantized to 123.46, while amount −5 is rejected. -/
theorem c4_positivity_and_quantization_witness :
    (CreateTransaction emptyDb idTest t0 today0 descTest d0415 (-5) =
      Except.error msgAmountPositive) ∧
    ∃ db' stored, CreateTransaction emptyDb idTest t0 today0 descTest d0415 (123456/1000) =
        Except.ok (idTest, db') ∧
      emptyDb.store (txKey idTest) = none ∧
      db'.store (txKey idTest) = some stored ∧
      stored.description = descTest ∧ stored.date = d0415 ∧
      stored.amount = roundCents (123456/1000) := by
  constructor
  · exact (c4_positivity_and_quantization emptyDb idTest t0 today0 descTest d0415 (-5)
      (by decide) (by decide)).1 (by norm_num)
  · obtain ⟨db', stored, h1, h2, h3, h4, h5⟩ :=
      (c4_positivity_and_quantization emptyDb idTest t0 today0 descTest d0415 (123456/1000)
        (by decide) (by decide)).2.1 (by norm_num [roundCents, mathRound, Int.floor_eq_iff])
    exact ⟨db', stored, h1, rfl, h2, h3, h4, h5⟩

/-- Counterexample to claim C5 as stated: a description of 26 two-byte
code points (26 ≤ 50 code points, but 52 UTF-8 bytes) is rejected even
though all other fields are valid — Go's `len` counts bytes. -/
theorem c5_counterexample :
    desc26twoByte.length ≤ 50 ∧ 50 < desc26twoByte.utf8ByteSize ∧
    CreateTransaction emptyDb idTest t0 today0 desc26twoByte d0415 (12345/100) =
      Except.error msgDescTooLong := by
  refine ⟨by decide, by decide, ?_⟩
  with_unfolding_all rfl

/-- Claim C5 (amended): the description bound is measured in UTF-8 bytes,
not code points: creation fails with the description error exactly when the
byte length exceeds 50, and succeeds (other fields being valid) exactly
when the byte length is at most 50. -/
theorem c5_description_bound_in_bytes (db : BadgerDB) (newId : String) (now : GoTime)
    (today : GoDate) (desc : String) (date : GoDate) (amount : ℚ)
    (hamt : 0 < roundCents amount) (hdate : date.after today = false) :
    (50 < desc.utf8ByteSize →
      CreateTransaction db newId now today desc date amount = Except.error msgDescTooLong) ∧
    (desc.utf8ByteSize ≤ 50 →
      ∃ db', CreateTransaction db newId now today desc date amount = Except.ok (newId, db')) := by
  constructor
  · intro hlong
    unfold CreateTransaction Transaction.CalculateTTL Transaction.Validate
    simp only []
    rw [if_pos (by omega)]
  · intro hdesc
    obtain ⟨db', stored, h1, _, _, _, _⟩ :=
      createTransaction_succeeds db newId now today desc date amount hdesc hamt hdate
    exact ⟨db', h1⟩

/-- Witness for the amended claim C5: a 51-byte ASCII description is
rejected, a 4-byte one is accepted. -/
theorem c5_description_bound_in_bytes_witness :
    (CreateTransaction emptyDb idTest t0 today0 (String.mk (List.replicate 51 'a')) d0415
      (12345/100) = Except.error msgDescTooLong) ∧
    ∃ db', CreateTransaction emptyDb idTest t0 today0 descTest d0415 (12345/100) =
      Except.ok (idTest, db') := by
  constructor
  · exact (c5_description_bound_in_bytes emptyDb idTest t0 today0
      (String.mk (List.replicate 51 'a')) d0415 (12345/100)
      (by norm_num [roundCents, mathRound, Int.floor_eq_iff]) (by decide)).1 (by decide)
  · exact (c5_description_bound_in_bytes emptyDb idTest t0 today0 descTest d0415 (12345/100)
      (by norm_num [roundCents, mathRound, Int.floor_eq_iff]) (by decide)).2 (by decide)

/-- Claim C7: a valid transaction created through the service and then
retrieved by the returned id comes back equal in description, date and
amount, the amount compared after cent quantization. -/
theorem c7_round_trip (db : BadgerDB) (newId : String) (now : GoTime) (today : GoDate)
    (desc : String) (date : GoDate) (amount : ℚ) (nowUnix : ℤ)
    (hdesc : desc.utf8ByteSize ≤ 50) (hpos : 0 < roundCents amount)
    (hdate : date.after today = false) :
    ∃ db' stored warn,
      CreateTransaction db newId now today desc date amount = Except.ok (newId, db') ∧
      BadgerFindByID db' nowUnix newId = Except.ok (stored, warn) ∧
      stored.description = desc ∧ stored.date = date ∧ stored.amount = roundCents amount := by
  obtain ⟨db', stored, h1, h2, h3, h4, h5⟩ :=
    createTransaction_succeeds db newId now today desc date amount hdesc hpos hdate
  refine ⟨db', stored, decide (0 < stored.ttl ∧ stored.ttl < nowUnix), h1, ?_, h3, h4, h5⟩
  unfold BadgerFindByID
  rw [h2]

/-- Witness for claim C7 at the spec's scenario S1/S2: create
`("Test", 2023-04-15, 123.45)` and read it back. -/
theorem c7_round_trip_witness :
    ∃ db' stored warn,
      CreateTransaction emptyDb idTest t0 today0 descTest d0415 (12345/100) =
        Except.ok (idTest, db') ∧
      BadgerFindByID db' 0 idTest = Except.ok (stored, warn) ∧
      stored.description = descTest ∧ stored.date = d0415 ∧
      stored.amount = roundCents (12345/100) :=
  c7_round_trip emptyDb idTest t0 today0 descTest d0415 (12345/100) 0
    (by decide) (by norm_num [roundCents, mathRound, Int.floor_eq_iff]) (by decide)

/-- Counterexample to claim C2 as stated: a feed row dated outside the
window but carrying a non-positive rate is rejected with the
invalid-rate-value error, not a no-rate-in-window error (the client checks
`rate <= 0` before the window).  The row is still not cached. -/
theorem c2_counterexample :
    (rdBad.recordDate.before (sixMonthsBefore d0415) || rdBad.recordDate.after d0415) = true ∧
    GetExchangeRate NewExchangeRateCache 0 curEUR d0415 (.response 200 ⟨[rdBad]⟩) =
      (Except.error (.invalidRateValue (-1)), NewExchangeRateCache, true) ∧
    isNoRateInWindow (.invalidRateValue (-1)) = false := by
  refine ⟨by decide, ?_, rfl⟩
  with_unfolding_all rfl

/-- Claim C2 (amended): every feed row whose (parsed) rate is positive and
whose record date lies outside `[txDate − 6 months, txDate]` is rejected by
the client's independent window check with the outside-window error — one
of the two no-rate-in-window kinds — regardless of the feed-side filter,
and the cache is left untouched.  (A row with a non-positive rate is
rejected earlier with the invalid-rate error, also without caching.) -/
theorem c2_window_enforced (cache : ExchangeRateCache) (now : ℤ) (currency : String)
    (date : GoDate) (rd : RateData) (rest : List RateData)
    (hmiss : cache.Get now currency date = none)
    (hpos : 0 < rd.exchangeRate)
    (hout : (rd.recordDate.before (sixMonthsBefore date) || rd.recordDate.after date) = true) :
    GetExchangeRate cache now currency date (.response 200 ⟨rd :: rest⟩) =
      (Except.error (.outsideWindow rd.recordDate (sixMonthsBefore date) date), cache, true) ∧
    isNoRateInWindow (.outsideWindow rd.recordDate (sixMonthsBefore date) date) = true := by
  refine ⟨?_, rfl⟩
  unfold GetExchangeRate
  rw [hmiss]
  dsimp only []
  rw [if_neg (by norm_num), if_neg (not_le.mpr hpos), if_pos hout]

/-- Witness for the amended claim C2: a positive rate dated 2022-01-01 is
outside the window of transaction date 2023-04-15 and is rejected with the
outside-window error while the cache stays empty. -/
theorem c2_window_enforced_witness :
    GetExchangeRate NewExchangeRateCache 0 curEUR d0415 (.response 200 ⟨[rdOutWindow]⟩) =
      (Except.error (.outsideWindow rdOutWindow.recordDate (sixMonthsBefore d0415) d0415),
        NewExchangeRateCache, true) ∧
    isNoRateInWindow (.outsideWindow rdOutWindow.recordDate (sixMonthsBefore d0415) d0415) =
      true :=
  c2_window_enforced NewExchangeRateCache 0 curEUR d0415 rdOutWindow []
    (by rfl) (by norm_num [rdOutWindow]) (by decide)

/-- `String.append` concatenates the underlying character lists. -/
theorem strData_append (a b : String) : (a ++ b).data = a.data ++ b.data := rfl

/-- A pattern can only begin a list at least as long as itself. -/
theorem startsWithChars_length {pat l : List Char} (h : startsWithChars pat l = true) :
    pat.length ≤ l.length := by
  induction pat generalizing l with
  | nil => simp
  | cons p ps ih =>
    cases l with
    | nil => simp [startsWithChars] at h
    | cons c cs =>
      simp only [startsWithChars, Bool.and_eq_true] at h
      simpa using ih h.2

/-- No occurrence of a pattern fits in a strictly shorter list. -/
theorem hasSubChars_false_of_short {pat l : List Char} (h : l.length < pat.length) :
    hasSubChars pat l = false := by
  induction l with
  | nil =>
    cases pat with
    | nil => simp at h
    | cons p ps => rfl
  | cons c cs ih =>
    have hs : startsWithChars pat (c :: cs) = false := by
      cases hsw : startsWithChars pat (c :: cs) with
      | false => rfl
      | true =>
        have h2 := startsWithChars_length hsw
        simp only [List.length_cons] at h h2
        omega
    simp only [hasSubChars, hs, Bool.false_or]
    refine ih ?_
    simp only [List.length_cons] at h
    omega

/-- A prefix match survives extending the list on the right. -/
theorem startsWithChars_append {pat xs : List Char} (ys : List Char)
    (h : startsWithChars pat xs = true) : startsWithChars pat (xs ++ ys) = true := by
  induction pat generalizing xs with
  | nil => rfl
  | cons p ps ih =>
    cases xs with
    | nil => simp [startsWithChars] at h
    | cons c cs =>
      simp only [List.cons_append, startsWithChars, Bool.and_eq_true] at h ⊢
      exact ⟨h.1, ih h.2⟩

/-- A match at the very start is an occurrence. -/
theorem hasSubChars_of_startsWith {pat l : List Char} (h : startsWithChars pat l = true) :
    hasSubChars pat l = true := by
  cases l with
  | nil => simpa [hasSubChars] using h
  | cons c cs => simp [hasSubChars, h]

/-- An occurrence in the tail is an occurrence in the whole. -/
theorem hasSubChars_append_right {pat : List Char} (xs : List Char) {t : List Char}
    (h : hasSubChars pat t = true) : hasSubChars pat (xs ++ t) = true := by
  induction xs with
  | nil => simpa
  | cons c cs ih => simp [hasSubChars, ih]

/-- A block containing no character matching the pattern's head can be
skipped when searching for an occurrence. -/
theorem hasSubChars_skip (p : Char) (ps xs t : List Char)
    (h : ∀ c ∈ xs, (p == c) = false) :
    hasSubChars (p :: ps) (xs ++ t) = hasSubChars (p :: ps) t := by
  induction xs with
  | nil => rfl
  | cons c cs ih =>
    have hc := h c (List.mem_cons_self c cs)
    simp only [List.cons_append, hasSubChars, startsWithChars, hc, Bool.false_and, Bool.false_or]
    exact ih fun c' hc' => h c' (List.mem_cons_of_mem _ hc')

/-- Decimal digit characters are never the letter n. -/
theorem digitChar_ne_n {k : ℕ} (hk : k < 10) : ('n' == Nat.digitChar k) = false := by
  interval_cases k <;> decide

/-- The decimal rendering contains no letter n. -/
theorem natDigits_ne_n (fuel n : ℕ) : ∀ c ∈ natDigits fuel n, ('n' == c) = false := by
  induction fuel generalizing n with
  | zero => intro c hc; simp [natDigits] at hc
  | succ fuel ih =>
    intro c hc
    unfold natDigits at hc
    by_cases h : n < 10
    · rw [if_pos h] at hc
      simp only [List.mem_singleton] at hc
      subst hc
      exact digitChar_ne_n h
    · rw [if_neg h] at hc
      rcases List.mem_append.mp hc with hc | hc
      · exact ih _ c hc
      · simp only [List.mem_singleton] at hc
        subst hc
        exact digitChar_ne_n (Nat.mod_lt _ (by norm_num))

/-- The characters of a padded number carry no letter n. -/
theorem padNum_ne_n (w : ℕ) (n : ℤ) : ∀ c ∈ (padNum w n).data, ('n' == c) = false := by
  intro c hc
  unfold padNum at hc
  simp only [strData_append] at hc
  rcases List.mem_append.mp hc with h | h
  · have h0 : c = '0' := List.eq_of_mem_replicate h
    subst h0
    decide
  · exact natDigits_ne_n _ _ c h

/-- A formatted date consists of digits and dashes only — in particular it
contains no letter n. -/
theorem formatDate_ne_n (dt : GoDate) : ∀ c ∈ (formatDate dt).data, ('n' == c) = false := by
  intro c hc
  unfold formatDate at hc
  simp only [strData_append] at hc
  have hdash : ∀ c' ∈ sDash.data, ('n' == c') = false := by decide
  rcases List.mem_append.mp hc with h | h
  · rcases List.mem_append.mp h with h | h
    · rcases List.mem_append.mp h with h | h
      · rcases List.mem_append.mp h with h | h
        · exact padNum_ne_n _ _ c h
        · exact hdash c h
      · exact padNum_ne_n _ _ c h
    · exact hdash c h
  · exact padNum_ne_n _ _ c h

/-- Each character occupies at least one UTF-8 byte. -/
theorem length_le_utf8Len (l : List Char) : l.length ≤ String.utf8Len l := by
  induction l with
  | nil => simp
  | cons c cs ih =>
    have := Char.utf8Size_pos c
    simp only [List.length_cons, String.utf8Len_cons]
    omega

/-- A string has no more characters than UTF-8 bytes (Go's `len`). -/
theorem data_length_le_utf8ByteSize (s : String) : s.data.length ≤ s.utf8ByteSize := by
  obtain ⟨l⟩ := s
  simpa using length_le_utf8Len l

/-- The service wrapping of a rate error, spelled with the message pieces. -/
theorem errMsg_wrapGetRate (e : GoErr) : errMsg (.wrapGetRate e) = msgP1 ++ errMsg e := rfl

/-- The repository wrapping of a client error, spelled with the pieces. -/
theorem errMsg_failedRetrieveRate (e : GoErr) :
    errMsg (.failedRetrieveRate e) = msgP2 ++ errMsg e := rfl

/-- The client's no-rate message, spelled with the pieces. -/
theorem errMsg_noRateAvailable (d : GoDate) (c : String) :
    errMsg (.noRateAvailable d c) = msgP3 ++ formatDate d ++ msgP4 ++ c := rfl

set_option maxHeartbeats 1600000 in
/-- The handler classifies the doubly-wrapped no-rate-available error as
HTTP 400 no-rate-available, for every transaction date and every currency
of at most 3 characters: the "not found" probe never matches (the fixed
text defeats it, a date is digits and dashes, and the currency is too
short to contain it), while the "no exchange rate available" probe matches
inside the fixed text. -/
theorem classify_noRateAvailable (d : GoDate) (c : String) (hlen : c.data.length ≤ 3) :
    classifyConversionErr (.wrapGetRate (.failedRetrieveRate (.noRateAvailable d c))) =
      ⟨eNoRate, 400, dNoRate⟩ := by
  have hmsg : (errMsg (.wrapGetRate (.failedRetrieveRate (.noRateAvailable d c)))).data =
      msgP1.data ++ (msgP2.data ++ (msgP3.data ++
        ((formatDate d).data ++ (msgP4.data ++ c.data)))) := by
    simp only [errMsg_wrapGetRate, errMsg_failedRetrieveRate, errMsg_noRateAvailable,
      strData_append, List.append_assoc]
  have hneg : strContains
      (errMsg (.wrapGetRate (.failedRetrieveRate (.noRateAvailable d c)))) sNotFound = false := by
    show hasSubChars sNotFound.data _ = false
    rw [hmsg]
    simp [sNotFound, msgP1, msgP2, msgP3, hasSubChars, startsWithChars]
    rw [hasSubChars_skip 'n' _ _ _ (formatDate_ne_n d)]
    simp [msgP4, hasSubChars, startsWithChars]
    exact hasSubChars_false_of_short (by simpa using Nat.lt_of_le_of_lt hlen (by norm_num))
  have hpos : strContains
      (errMsg (.wrapGetRate (.failedRetrieveRate (.noRateAvailable d c)))) sNoRateAvailable =
      true := by
    show hasSubChars sNoRateAvailable.data _ = true
    rw [hmsg]
    apply hasSubChars_append_right
    apply hasSubChars_append_right
    exact hasSubChars_of_startsWith (startsWithChars_append _ (by decide))
  unfold classifyConversionErr
  dsimp only []
  rw [if_neg (by rw [hneg]; exact Bool.false_ne_true), if_pos hpos]

/-- Claim C9: for every conversion request — any transaction date, any
currency of 3 bytes (the length the handler admits) — a feed response with
HTTP status OK and an empty `data` array makes the conversion fail with the
no-rate-available error, a kind of its own among the no-rate-in-window
kinds, and the handler surfaces it as HTTP 400 with a description
mentioning "6 months". -/
theorem c9_empty_data_maps_to_400 (db : BadgerDB) (cache : ExchangeRateCache) (now : ℤ)
    (id currency : String) (tx : Transaction) (warn : Bool)
    (hfind : BadgerFindByID db now id = Except.ok (tx, warn))
    (hmiss : cache.Get now currency tx.date = none)
    (hcur : currency.utf8ByteSize = 3) :
    (GetTransactionInCurrency db cache now id currency (.response 200 ⟨[]⟩)).1 =
      Except.error (.wrapGetRate (.failedRetrieveRate (.noRateAvailable tx.date currency))) ∧
    classifyConversionErr
        (.wrapGetRate (.failedRetrieveRate (.noRateAvailable tx.date currency))) =
      ⟨eNoRate, 400, dNoRate⟩ ∧
    strContains dNoRate s6Months = true ∧
    isNoRateInWindow (.noRateAvailable tx.date currency) = true := by
  have hlen : currency.data.length ≤ 3 := hcur ▸ data_length_le_utf8ByteSize currency
  refine ⟨?_, classify_noRateAvailable tx.date currency hlen, by decide, rfl⟩
  unfold GetTransactionInCurrency
  rw [hfind]
  dsimp only []
  have hrate : (GetExchangeRate cache now currency tx.date (.response 200 ⟨[]⟩)).1 =
      Except.error (.noRateAvailable tx.date currency) := by
    unfold GetExchangeRate
    rw [hmiss]
    dsimp only []
    rw [if_neg (by norm_num)]
  unfold FindRate
  dsimp only []
  rw [hrate]

/-- Witness for claim C9 at the spec's scenario S7. -/
theorem c9_empty_data_maps_to_400_witness :
    (GetTransactionInCurrency dbTest NewExchangeRateCache 0 idTest curEUR
        (.response 200 ⟨[]⟩)).1 =
      Except.error (.wrapGetRate (.failedRetrieveRate (.noRateAvailable d0415 curEUR))) ∧
    classifyConversionErr
        (.wrapGetRate (.failedRetrieveRate (.noRateAvailable d0415 curEUR))) =
      ⟨eNoRate, 400, dNoRate⟩ ∧
    strContains dNoRate s6Months = true ∧
    isNoRateInWindow (.noRateAvailable d0415 curEUR) = true :=
  c9_empty_data_maps_to_400 dbTest NewExchangeRateCache 0 idTest curEUR txTest false
    (by rfl) (by rfl) (by rfl)

/-- Claim C6: for every transport oracle the retry loop makes at most 3
`Do` calls; an attempt that yields any HTTP response (whatever the status,
OK or not) ends the loop immediately with no further attempt; after failed
attempt `k` (with `k < 3`) it sleeps `k²` seconds (1 s, then 4 s) and
builds one fresh request per retry; three transport failures exhaust the
loop. -/
theorem c6_retry_policy (transport : ℕ → FeedOutcome) :
    (executeWithRetry transport).doCalls ≤ 3 ∧
    (∀ s b, transport 1 = .response s b →
      executeWithRetry transport = ⟨1, [], 0, .response s b⟩) ∧
    (∀ s b, transport 1 = .transportErr → transport 2 = .response s b →
      executeWithRetry transport = ⟨2, [1], 1, .response s b⟩) ∧
    (∀ s b, transport 1 = .transportErr → transport 2 = .transportErr →
      transport 3 = .response s b →
      executeWithRetry transport = ⟨3, [1, 4], 2, .response s b⟩) ∧
    (transport 1 = .transportErr → transport 2 = .transportErr →
      transport 3 = .transportErr →
      executeWithRetry transport = ⟨3, [1, 4], 2, .transportErr⟩) := by
  refine ⟨?_, ?_, ?_, ?_, ?_⟩
  · cases h1 : transport 1 <;> cases h2 : transport 2 <;> cases h3 : transport 3 <;>
      simp [executeWithRetry, retryGo, h1, h2, h3]
  · intro s b h1
    simp [executeWithRetry, retryGo, h1]
  · intro s b h1 h2
    simp [executeWithRetry, retryGo, h1, h2]
  · intro s b h1 h2 h3
    simp [executeWithRetry, retryGo, h1, h2, h3]
  · intro h1 h2 h3
    simp [executeWithRetry, retryGo, h1, h2, h3]

/-- Witness for claim C6: three transport failures give exactly 3 attempts
with sleeps 1 s and 4 s; a transport failure followed by an HTTP 500 stops
after the second attempt without retrying the status error. -/
theorem c6_retry_policy_witness :
    executeWithRetry transportAlwaysFail = ⟨3, [1, 4], 2, .transportErr⟩ ∧
    executeWithRetry transportFailThen500 = ⟨2, [1], 1, .response 500 ⟨[]⟩⟩ ∧
    (executeWithRetry transportFailThen500).doCalls ≤ 3 :=
  ⟨(c6_retry_policy transportAlwaysFail).2.2.2.2 rfl rfl rfl,
    (c6_retry_policy transportFailThen500).2.2.1 500 ⟨[]⟩ rfl rfl,
    (c6_retry_policy transportFailThen500).1⟩

/-- A successful rate fetch that consulted the feed echoes the requested
currency and leaves behind exactly the cache with the fresh entry added. -/
theorem getExchangeRate_feed_ok (cache : ExchangeRateCache) (now : ℤ) (currency : String)
    (date : GoDate) (feed : FeedOutcome) (rate : ExchangeRate) (c : ExchangeRateCache)
    (h : GetExchangeRate cache now currency date feed = (Except.ok rate, c, true)) :
    rate.currency = currency ∧ c = cache.Put now rate date := by
  unfold GetExchangeRate at h
  cases hget : cache.Get now currency date with
  | some r => rw [hget] at h; simp at h
  | none =>
    rw [hget] at h
    dsimp only [] at h
    cases feed with
    | transportErr => simp at h
    | response status body =>
      dsimp only [] at h
      by_cases hs : status ≠ 200
      · rw [if_pos hs] at h; simp at h
      · rw [if_neg hs] at h
        obtain ⟨data⟩ := body
        cases data with
        | nil => simp at h
        | cons rd rest =>
          dsimp only [] at h
          by_cases hr : rd.exchangeRate ≤ 0
          · rw [if_pos hr] at h; simp at h
          · rw [if_neg hr] at h
            by_cases hw : (rd.recordDate.before (sixMonthsBefore date) ||
                rd.recordDate.after date) = true
            · rw [if_pos hw] at h; simp at h
            · rw [if_neg hw] at h
              simp only [Prod.mk.injEq, Except.ok.injEq] at h
              obtain ⟨hrate, hc, -⟩ := h
              subst hrate
              exact ⟨rfl, hc.symm⟩

/-- An entry just put into the cache is returned by `Get` for the same
(currency, transaction date) key as long as the elapsed time does not
exceed the expiration. -/
theorem cachePut_get_hit (cache : ExchangeRateCache) (t1 t2 : ℤ) (rate : ExchangeRate)
    (date : GoDate) (h : t2 - t1 ≤ cache.expiration) :
    (cache.Put t1 rate date).Get t2 rate.currency date = some rate := by
  unfold ExchangeRateCache.Put ExchangeRateCache.Get
  dsimp only []
  rw [if_pos rfl]
  dsimp only []
  rw [if_neg (not_lt.mpr h)]

/-- Claim C8: two consecutive conversions of the same (id, currency) pair
within the cache TTL produce identical converted responses with exactly one
feed consultation: the first stores the resolved rate, the second is
answered from the cache (its feed-consulted flag is false, whatever the
second feed outcome would have been). -/
theorem c8_cache_hit_idempotent (db : BadgerDB) (cache : ExchangeRateCache) (t1 t2 : ℤ)
    (id currency : String) (feed1 feed2 : FeedOutcome) (ct : ConvertedTransaction)
    (c1 : ExchangeRateCache)
    (h1 : GetTransactionInCurrency db cache t1 id currency feed1 = (Except.ok ct, c1, true))
    (httl : t2 - t1 ≤ cache.expiration) :
    GetTransactionInCurrency db c1 t2 id currency feed2 = (Except.ok ct, c1, false) := by
  cases hfind : BadgerFindByID db t1 id with
  | error e =>
    unfold GetTransactionInCurrency at h1
    rw [hfind] at h1
    simp at h1
  | ok p =>
    obtain ⟨tx, warn⟩ := p
    have hstore : db.store (txKey id) = some tx := by
      unfold BadgerFindByID at hfind
      cases hs : db.store (txKey id) with
      | none => rw [hs] at hfind; simp at hfind
      | some tx0 =>
        rw [hs] at hfind
        simp only [Except.ok.injEq, Prod.mk.injEq] at hfind
        rw [hfind.1]
    unfold GetTransactionInCurrency at h1
    rw [hfind] at h1
    dsimp only [] at h1
    unfold FindRate at h1
    dsimp only [] at h1
    rcases hG3 : GetExchangeRate cache t1 currency tx.date feed1 with ⟨res, c2, b2⟩
    rw [hG3] at h1
    dsimp only [] at h1
    cases res with
    | error e => simp at h1
    | ok rate =>
      dsimp only [] at h1
      simp only [Prod.mk.injEq, Except.ok.injEq] at h1
      obtain ⟨hct, hc1, hflag⟩ := h1
      subst hc1
      subst hflag
      obtain ⟨hcur, hput⟩ := getExchangeRate_feed_ok cache t1 currency tx.date feed1 rate c2 hG3
      have hfind2 : BadgerFindByID db t2 id =
          Except.ok (tx, decide (0 < tx.ttl ∧ tx.ttl < t2)) := by
        unfold BadgerFindByID
        rw [hstore]
      have hhit : c2.Get t2 currency tx.date = some rate := by
        rw [hput, ← hcur]
        exact cachePut_get_hit cache t1 t2 rate tx.date httl
      have hrate2 : GetExchangeRate c2 t2 currency tx.date feed2 =
          (Except.ok rate, c2, false) := by
        unfold GetExchangeRate
        rw [hhit]
      unfold GetTransactionInCurrency
      rw [hfind2]
      dsimp only []
      unfold FindRate
      dsimp only []
      rw [hrate2]
      dsimp only []
      rw [hct]

/-- Witness for claim C8: after the first conversion populates the cache,
an identical request one hour later returns the same converted record from
the cache — even though the second feed outcome would have been an HTTP
500 — with the feed-consulted flag false. -/
theorem c8_cache_hit_idempotent_witness :
    GetTransactionInCurrency dbTest cacheAfter 3600 idTest curEUR (.response 500 ⟨[]⟩) =
      (Except.ok ctExpected, cacheAfter, false) := by
  have h1 : GetTransactionInCurrency dbTest NewExchangeRateCache 0 idTest curEUR feed85 =
      (Except.ok ctExpected, cacheAfter, true) := by with_unfolding_all rfl
  exact c8_cache_hit_idempotent dbTest NewExchangeRateCache 0 3600 idTest curEUR feed85
    (.response 500 ⟨[]⟩) ctExpected cacheAfter h1 (by norm_num [NewExchangeRateCache])

/-- Truncated division by 12 of a small integer is zero. -/
theorem tdiv12_small (a : ℤ) (h1 : -12 < a) (h2 : a < 12) : Int.tdiv a 12 = 0 := by
  interval_cases a <;> decide

/-- Truncated remainder by 12 of a small integer is itself. -/
theorem tmod12_small (a : ℤ) (h1 : -12 < a) (h2 : a < 12) : Int.tmod a 12 = a := by
  interval_cases a <;> decide

/-- Every month has at most 31 days. -/
theorem daysInMonth_le31 (y m : ℤ) : daysInMonth y m ≤ 31 := by
  unfold daysInMonth
  split_ifs <;> norm_num

/-- Every month has at least 28 days. -/
theorem daysInMonth_ge28 (y m : ℤ) : 28 ≤ daysInMonth y m := by
  unfold daysInMonth
  split_ifs <;> norm_num

/-- Go's month normalization applied to `m − 6` for a month in 1..12:
July onward stays in the same year, January–June wraps to the prior year. -/
theorem normMonth_sub6 (y m : ℤ) (hm1 : 1 ≤ m) (hm2 : m ≤ 12) :
    normMonth y (m + -6) = (if 7 ≤ m then y else y - 1, if 7 ≤ m then m - 6 else m + 6) := by
  unfold normMonth
  dsimp only []
  rw [tdiv12_small (m + -6 - 1) (by omega) (by omega),
    tmod12_small (m + -6 - 1) (by omega) (by omega)]
  by_cases h7 : 7 ≤ m
  · rw [if_neg (by omega : ¬ (m + -6 - 1 < 0)), if_pos h7, if_pos h7]
    simp only [Prod.mk.injEq]
    omega
  · rw [if_pos (by omega : m + -6 - 1 < 0), if_neg h7, if_neg h7]
    simp only [Prod.mk.injEq]
    omega

/-- The day-overflow carry is the identity when the day exists in the
month. -/
theorem carryDays_stop (y m d : ℤ) (h : d ≤ daysInMonth y m) :
    carryDays y m d 24 = ⟨y, m, d⟩ := by
  unfold carryDays
  rw [if_pos h]

/-- One carry step: a day count exceeding the month (but fitting in the
next month) lands in the following month. -/
theorem carryDays_carry (y m d : ℤ) (h1 : daysInMonth y m < d) (hm12 : m ≠ 12)
    (h2 : d - daysInMonth y m ≤ daysInMonth y (m + 1)) :
    carryDays y m d 24 = ⟨y, m + 1, d - daysInMonth y m⟩ := by
  unfold carryDays
  rw [if_neg (not_le.mpr h1), if_neg hm12]
  unfold carryDays
  rw [if_pos h2]

/-- Counterexample to claim C3 as stated: for October 31 the code's lower
bound is May 1 (Go's `AddDate` normalizes the missing April 31 forward),
not April 30 as the claim requires. -/
theorem c3_counterexample :
    sixMonthsBefore ⟨2023, 10, 31⟩ = ⟨2023, 5, 1⟩ ∧
    sixMonthsBefore ⟨2023, 10, 31⟩ ≠ ⟨2023, 4, 30⟩ := by decide

/-- Claim C3 (amended): for every valid transaction date the lower bound of
the rate window is the same day-of-month six calendar months earlier
whenever that month has such a day; when it does not, Go's `AddDate`
normalization carries the excess days forward into the following month
(October 31 → May 1) rather than clamping to the month's last day. -/
theorem c3_window_lower_bound (dt : GoDate)
    (hm1 : 1 ≤ dt.month) (hm2 : dt.month ≤ 12) (hd1 : 1 ≤ dt.day)
    (hd2 : dt.day ≤ daysInMonth dt.year dt.month) :
    (dt.day ≤ daysInMonth (windowYear dt) (windowMonth dt) →
      sixMonthsBefore dt = ⟨windowYear dt, windowMonth dt, dt.day⟩) ∧
    (daysInMonth (windowYear dt) (windowMonth dt) < dt.day →
      sixMonthsBefore dt =
        nextMonthDate (windowYear dt) (windowMonth dt)
          (dt.day - daysInMonth (windowYear dt) (windowMonth dt))) := by
  obtain ⟨y, m, d⟩ := dt
  simp only [windowYear, windowMonth]
  have hunf : sixMonthsBefore ⟨y, m, d⟩ =
      carryDays (if 7 ≤ m then y else y - 1) (if 7 ≤ m then m - 6 else m + 6) d 24 := by
    unfold sixMonthsBefore addDateMonths
    dsimp only []
    rw [normMonth_sub6 y m hm1 hm2]
  rw [hunf]
  constructor
  · intro hle
    exact carryDays_stop _ _ _ hle
  · intro hgt
    have hd31 : d ≤ 31 := le_trans hd2 (daysInMonth_le31 y m)
    have hm12 : (if 7 ≤ m then m - 6 else m + 6) ≠ 12 := by
      intro he
      have h12 : daysInMonth (if 7 ≤ m then y else y - 1) 12 = 31 := by
        unfold daysInMonth
        norm_num
      rw [he, h12] at hgt
      omega
    unfold nextMonthDate
    rw [if_neg hm12]
    refine carryDays_carry _ _ _ hgt hm12 ?_
    have hb1 := daysInMonth_ge28 (if 7 ≤ m then y else y - 1)
      ((if 7 ≤ m then m - 6 else m + 6) + 1)
    have hb2 := daysInMonth_ge28 (if 7 ≤ m then y else y - 1) (if 7 ≤ m then m - 6 else m + 6)
    omega

/-- Witness for the amended claim C3: July 15 maps back to January 15 of
the same year (the same-day case), and October 31 overflows April into
May 1. -/
theorem c3_window_lower_bound_witness :
    sixMonthsBefore ⟨2023, 7, 15⟩ = ⟨2023, 1, 15⟩ ∧
    sixMonthsBefore ⟨2023, 10, 31⟩ = ⟨2023, 5, 1⟩ := by
  constructor
  · have h := (c3_window_lower_bound ⟨2023, 7, 15⟩
      (by decide) (by decide) (by decide) (by decide)).1 (by decide)
    exact h.trans (by decide)
  · have h := (c3_window_lower_bound ⟨2023, 10, 31⟩
      (by decide) (by decide) (by decide) (by decide)).2 (by decide)
    exact h.trans (by decide)

end WexTag
